import Mathlib

/-!
Verification development for the motocross-system repository.

The repository snapshot under verification contains the React frontend
(`frontend/App.js`) together with the project documentation.  The backend
race core (`backend/race_manager.py`) and the reader communication modules
(`communication/serial_reader.py`, `communication/wiegand_reader.py`,
`communication/tcpip_reader.py`) are referenced by the documentation but are
not part of the snapshot, so those components are modelled here from the
specification text and the claims are settled against that model.  The
frontend definitions (`formatTime`, `fetchLeaderboard`, the leaderboard table
rendering) are translated directly from `frontend/App.js`.

Times are modelled as rational numbers (seconds).
-/

/- ## Race data model.
Modelled from the spec: `backend/race_manager.py` is absent from the
snapshot; the data model follows spec sections 3 and 4.4. -/

/-- Race type of an event: lap-limited or time-limited. -/
inductive RaceType
  | laps
  | time
deriving DecidableEq

/-- Lifecycle state of an event: `Created → Active → Stopped` (terminal). -/
inductive EventState
  | Created
  | Active
  | Stopped
deriving DecidableEq

/-- Modelled from the spec: an `Event` record (spec section 3); `start_time`
is recorded by `StartEvent`. -/
structure RaceEvent where
  race_type : RaceType
  max_laps : Nat
  max_duration : ℚ
  state : EventState
  start_time : ℚ
deriving DecidableEq

/-- Modelled from the spec: a `LapRecord` (spec section 3), extended with the
crossing timestamp, which step 3 of the scoring algorithm reads back as
`previous.timestamp`. -/
structure LapRecord where
  rider_id : Nat
  lap_number : Nat
  lap_time : ℚ
  cumulative_time : ℚ
  timestamp : ℚ
deriving DecidableEq

/-- Race Manager state: the tracked event plus the lap records created so
far, in creation order. -/
structure RaceState where
  event : RaceEvent
  records : List LapRecord
deriving DecidableEq

/-- Lap records of one rider, in creation order. -/
def riderRecsOf (recs : List LapRecord) (r : Nat) : List LapRecord :=
  recs.filter (fun lr => lr.rider_id == r)

/-- Lap records of one rider in a race state. -/
def riderRecs (st : RaceState) (r : Nat) : List LapRecord :=
  riderRecsOf st.records r

/-- Cumulative time scored so far by a rider (0 when the rider has no laps). -/
def riderCum (st : RaceState) (r : Nat) : ℚ :=
  (((riderRecs st r).getLast?).map (fun lr => lr.cumulative_time)).getD 0

/-- Modelled from the spec: step 4 of the scoring algorithm — the rider has
already reached `max_laps` (lap-based event) or the rider's cumulative time
already exceeds `max_duration` (time-based event). -/
def limitReached (st : RaceState) (r : Nat) : Bool :=
  match st.event.race_type with
  | RaceType.laps => decide (st.event.max_laps ≤ (riderRecs st r).length)
  | RaceType.time => decide (st.event.max_duration < riderCum st r)

/-- Modelled from the spec: steps 2 and 3 of the scoring algorithm — the lap
record a crossing at time `ts` would create for rider `r`. -/
def newLapRecord (st : RaceState) (r : Nat) (ts : ℚ) : LapRecord :=
  match (riderRecs st r).getLast? with
  | none =>
      { rider_id := r, lap_number := 1, lap_time := ts - st.event.start_time,
        cumulative_time := ts - st.event.start_time, timestamp := ts }
  | some prev =>
      { rider_id := r, lap_number := prev.lap_number + 1,
        lap_time := ts - prev.timestamp,
        cumulative_time := prev.cumulative_time + (ts - prev.timestamp),
        timestamp := ts }

/-- Modelled from the spec: the Race Manager's scoring decision for an
accepted crossing of rider `r` at time `ts` (spec section 4.4).  A crossing
is rejected as a no-op when the event is not `Active` or when the configured
limit is already reached; otherwise a new lap record is appended. -/
def processCrossing (st : RaceState) (r : Nat) (ts : ℚ) : RaceState :=
  if st.event.state ≠ EventState.Active then st
  else if limitReached st r then st
  else { st with records := st.records ++ [newLapRecord st r ts] }

/-- Error surfaced by the event lifecycle operations. -/
inductive RMError
  | InvalidTransition
deriving DecidableEq

/-- Modelled from the spec: `StartEvent` fails with `InvalidTransition` if the
event is not in `Created`; otherwise it records `start_time` and moves the
event to `Active`. -/
def startEvent (st : RaceState) (ts : ℚ) : Except RMError RaceState :=
  if st.event.state = EventState.Created then
    Except.ok { st with event := { st.event with state := EventState.Active, start_time := ts } }
  else Except.error RMError.InvalidTransition

/-- Modelled from the spec: `StopEvent` fails with `InvalidTransition` unless
the event is `Active`; otherwise it moves the event to `Stopped`. -/
def stopEvent (st : RaceState) : Except RMError RaceState :=
  if st.event.state = EventState.Active then
    Except.ok { st with event := { st.event with state := EventState.Stopped } }
  else Except.error RMError.InvalidTransition

/-- Operations that act on the race state.  Reader disconnection and
reconnection are included: per spec section 4.2 they are handled entirely
inside the Reader Session and do not touch the Race Manager's state. -/
inductive Op
  | start (ts : ℚ)
  | stop
  | cross (rider : Nat) (ts : ℚ)
  | readerDisconnect (reader_id : String)
  | readerReconnect (reader_id : String)

/-- Apply one operation; a failed lifecycle transition leaves the state
unchanged (no side effects). -/
def applyOp (st : RaceState) : Op → RaceState
  | Op.start ts =>
      match startEvent st ts with
      | Except.ok st' => st'
      | Except.error _ => st
  | Op.stop =>
      match stopEvent st with
      | Except.ok st' => st'
      | Except.error _ => st
  | Op.cross r ts => processCrossing st r ts
  | Op.readerDisconnect _ => st
  | Op.readerReconnect _ => st

/-- Run a list of operations from a state. -/
def runOps (st : RaceState) (ops : List Op) : RaceState :=
  ops.foldl applyOp st

/-- Initial race-manager state for an event configuration: no lap records. -/
def initState (ev : RaceEvent) : RaceState :=
  { event := ev, records := [] }

/-- Process a list of accepted crossings `(rider, timestamp)` in arrival
order. -/
def processList (st : RaceState) (cs : List (Nat × ℚ)) : RaceState :=
  cs.foldl (fun s c => processCrossing s c.1 c.2) st

/- ## Debounce Filter.
Modelled from the spec: the communication modules are absent from the
snapshot; the filter follows spec section 4.3. -/

/-- A normalized tag detection, as emitted by a Reader Session. -/
structure TagEvent where
  reader_id : String
  epc : String
  timestamp : ℚ
deriving DecidableEq

/-- Debounce state: per `(reader_id, epc)` pair, the timestamp of the last
accepted event.  Newest bindings shadow older ones. -/
abbrev DebounceState := List ((String × String) × ℚ)

/-- The `(reader_id, epc)` pair identifying a tag event's debounce slot. -/
def tagKey (e : TagEvent) : String × String := (e.reader_id, e.epc)

/-- Modelled from the spec: one step of the Debounce Filter — if the event
arrives within `abt` of the last accepted event from the same pair it is
suppressed (and the stored timestamp is not updated); otherwise it is
accepted, the timestamp is updated and the event is forwarded (`true`). -/
def debounceStep (abt : ℚ) (st : DebounceState) (e : TagEvent) : DebounceState × Bool :=
  match st.lookup (tagKey e) with
  | some last =>
      if e.timestamp - last < abt then (st, false)
      else ((tagKey e, e.timestamp) :: st, true)
  | none => ((tagKey e, e.timestamp) :: st, true)

/-- Forwarding decisions of the Debounce Filter over a sequence of events. -/
def debounceFlags (abt : ℚ) (st : DebounceState) : List TagEvent → List Bool
  | [] => []
  | e :: es =>
      let p := debounceStep abt st e
      p.2 :: debounceFlags abt p.1 es

/-- Concrete event configurations used to instantiate the quantified
theorems. -/
def demoCreatedEv : RaceEvent := ⟨RaceType.laps, 10, 0, EventState.Created, 0⟩

/-- Concrete stopped lap-based event. -/
def demoStoppedEv : RaceEvent := ⟨RaceType.laps, 10, 0, EventState.Stopped, 0⟩

/-- Concrete active lap-based event with a zero lap limit. -/
def demoZeroLapEv : RaceEvent := ⟨RaceType.laps, 0, 0, EventState.Active, 0⟩

/-- Concrete active time-based event with a 100 second limit. -/
def demoTimeEv : RaceEvent := ⟨RaceType.time, 0, 100, EventState.Active, 0⟩

/-- Concrete race state of `demoTimeEv` whose single rider is already over the
duration limit. -/
def demoOverTimeState : RaceState := ⟨demoTimeEv, [⟨1, 1, 101, 101, 101⟩]⟩

/-- The lap-number invariant: every rider's lap records carry lap numbers
`1, 2, ..., n` in creation order. -/
def lapNumbersOk (st : RaceState) : Prop :=
  ∀ r, (riderRecs st r).map (fun lr => lr.lap_number)
        = List.range' 1 (riderRecs st r).length

/-- Concrete active lap-based event used in the scenario runs. -/
def demoActiveEv : RaceEvent := ⟨RaceType.laps, 10, 0, EventState.Active, 0⟩

/- ## Wiegand 26-bit decoder.
Modelled from the spec: `communication/wiegand_reader.py` is absent from the
snapshot; the W26 frame layout follows spec section 4.1.  A frame is a list
of 26 bits; bit 0 is even parity over the low 12 data bits and bit 25 is odd
parity over the high 12 data bits of the 24-bit payload. -/

/-- Transport-level Wiegand decode errors. -/
inductive WiegandError
  | ParityError
  | FrameIncomplete
deriving DecidableEq

/-- Even-parity bit of a bit list: set exactly when the number of ones is
odd, so that the total including the parity bit is even. -/
def parityBit (bs : List Bool) : Bool :=
  decide (bs.count true % 2 = 1)

/-- Low-w bits of a number, least significant first. -/
def natToBits : Nat → Nat → List Bool
  | 0, _ => []
  | w + 1, n => decide (n % 2 = 1) :: natToBits w (n / 2)

/-- Value of a bit list, least significant first. -/
def bitsToNat : List Bool → Nat
  | [] => 0
  | b :: bs => (cond b 1 0) + 2 * bitsToNat bs

/-- Modelled from the spec: encode a 24-bit payload as a W26 frame — even
parity over the low 12 data bits in front, odd parity over the high 12 data
bits at the end. -/
def encodeW26 (payload : Nat) : List Bool :=
  parityBit ((natToBits 24 payload).take 12) ::
    (natToBits 24 payload ++ [!parityBit ((natToBits 24 payload).drop 12)])

/-- Modelled from the spec: decode a W26 frame — check both parity bits
against the 24 data bits; on mismatch report `ParityError` and drop the
frame (no correction); report `FrameIncomplete` when 26 bits are not
present.  The decoded payload is the tag's EPC value. -/
def decodeW26 (frame : List Bool) : Except WiegandError Nat :=
  if frame.length = 26 then
    if frame.headD false = parityBit (((frame.drop 1).take 24).take 12) ∧
        frame.getLastD false = !parityBit (((frame.drop 1).take 24).drop 12) then
      Except.ok (bitsToNat ((frame.drop 1).take 24))
    else Except.error WiegandError.ParityError
  else Except.error WiegandError.FrameIncomplete

/-- Flip the bit at position `i` of a frame. -/
def flipBit (f : List Bool) (i : Nat) : List Bool :=
  f.set i (!(f.getD i false))

/- ## Leaderboard Engine.
Modelled from the spec: the Leaderboard Engine is absent from the snapshot;
it follows spec section 4.5 — group the event's lap records by rider,
compute per-rider statistics, rank by total laps descending, then total time
ascending, then earliest most-recent-lap timestamp; riders with zero laps
fall to the end. -/

/-- Per-rider aggregate over the lap records; `last_ts` (the most recent
crossing timestamp) is the tie-break key and is not part of the published
entry. -/
structure RiderStats where
  rider : Nat
  total_laps : Nat
  total_time : ℚ
  best_lap : ℚ
  average_lap : ℚ
  last_ts : ℚ
deriving DecidableEq

instance : Inhabited RiderStats := ⟨⟨0, 0, 0, 0, 0, 0⟩⟩

/-- Best (minimum) lap time of a record list; 0 when there are no laps. -/
def bestLapOf (l : List LapRecord) : ℚ :=
  match l.map (fun lr => lr.lap_time) with
  | [] => 0
  | t :: ts => ts.foldl min t

/-- Mean lap time of a record list (0 when there are no laps, since division
by zero yields 0). -/
def averageLapOf (l : List LapRecord) : ℚ :=
  (l.map (fun lr => lr.lap_time)).sum / (l.length : ℚ)

/-- Latest cumulative time of a record list; 0 when there are no laps. -/
def latestCumOf (l : List LapRecord) : ℚ :=
  ((l.getLast?).map (fun lr => lr.cumulative_time)).getD 0

/-- Most recent crossing timestamp of a record list; 0 when there are no
laps. -/
def lastTsOf (l : List LapRecord) : ℚ :=
  ((l.getLast?).map (fun lr => lr.timestamp)).getD 0

/-- Aggregate statistics of one rider over an event's lap records. -/
def riderStats (recs : List LapRecord) (r : Nat) : RiderStats :=
  { rider := r
    total_laps := (riderRecsOf recs r).length
    total_time := latestCumOf (riderRecsOf recs r)
    best_lap := bestLapOf (riderRecsOf recs r)
    average_lap := averageLapOf (riderRecsOf recs r)
    last_ts := lastTsOf (riderRecsOf recs r) }

/-- Ranking comparison: total laps descending, then total time ascending,
then earliest most-recent-lap timestamp first. -/
def statLe (a b : RiderStats) : Bool :=
  if a.total_laps = b.total_laps then
    if a.total_time = b.total_time then decide (a.last_ts ≤ b.last_ts)
    else decide (a.total_time < b.total_time)
  else decide (b.total_laps < a.total_laps)

/-- The ranking comparison as a relation. -/
def statRel (a b : RiderStats) : Prop := statLe a b = true

instance : DecidableRel statRel := fun a b => Bool.decEq (statLe a b) true

/-- Sorted per-rider statistics for an event: the riders mapped to their
aggregates and stably sorted by the ranking comparison. -/
def leaderboardStats (riders : List Nat) (recs : List LapRecord) : List RiderStats :=
  List.insertionSort statRel (riders.map (riderStats recs))

/-- A published leaderboard entry: exactly the documented fields
`{position, rider, total_laps, total_time, best_lap, average_lap}`. -/
structure LBEntry where
  position : Nat
  rider : Nat
  total_laps : Nat
  total_time : ℚ
  best_lap : ℚ
  average_lap : ℚ
deriving DecidableEq

instance : Inhabited LBEntry := ⟨⟨0, 0, 0, 0, 0, 0⟩⟩

/-- Publish one rider's statistics at a given position. -/
def toEntry (pos : Nat) (s : RiderStats) : LBEntry :=
  { position := pos, rider := s.rider, total_laps := s.total_laps,
    total_time := s.total_time, best_lap := s.best_lap, average_lap := s.average_lap }

/-- Number the sorted statistics starting from a given position. -/
def addPositions : Nat → List RiderStats → List LBEntry
  | _, [] => []
  | p, s :: rest => toEntry p s :: addPositions (p + 1) rest

/-- Modelled from the spec: `GetLeaderboard` — the ordered list of entries
`{position, rider, total_laps, total_time, best_lap, average_lap}`, positions
starting at 1. -/
def GetLeaderboard (riders : List Nat) (recs : List LapRecord) : List LBEntry :=
  addPositions 1 (leaderboardStats riders recs)

/-- Lap records of the C1 scenario: rider 1 ("A") with 5 laps totalling
600 s, rider 2 ("B") with 4 laps totalling 480 s, interleaved in crossing
order in a lap-based event. -/
def demoRecsC1 : List LapRecord :=
  [⟨2, 1, 110, 110, 110⟩, ⟨1, 1, 120, 120, 120⟩, ⟨2, 2, 120, 230, 230⟩,
   ⟨1, 2, 120, 240, 240⟩, ⟨2, 3, 120, 350, 350⟩, ⟨1, 3, 120, 360, 360⟩,
   ⟨2, 4, 130, 480, 480⟩, ⟨1, 4, 120, 480, 480⟩, ⟨1, 5, 120, 600, 600⟩]

/- ## Leaderboard entry fields (claim C8). -/

/-- A leaderboard entry field value (integer or time). -/
inductive FieldVal
  | nat (n : Nat)
  | rat (q : ℚ)
deriving DecidableEq

/-- The published JSON-level view of a leaderboard entry: exactly the
documented fields, in order. -/
def entryFields (e : LBEntry) : List (String × FieldVal) :=
  [("position", FieldVal.nat e.position), ("rider", FieldVal.nat e.rider),
   ("total_laps", FieldVal.nat e.total_laps), ("total_time", FieldVal.rat e.total_time),
   ("best_lap", FieldVal.rat e.best_lap), ("average_lap", FieldVal.rat e.average_lap)]

/-- The field names of `GetLeaderboard` entries per the interface contract. -/
def specEntryFieldNames : List String :=
  ["position", "rider", "total_laps", "total_time", "best_lap", "average_lap"]

/-- The field names the frontend table rows read from each leaderboard entry
(`frontend/App.js`, the `leaderboard.map` rendering block): `entry.position`,
`entry.rider_number`, `entry.rider_name`, `entry.team`, `entry.category`,
`entry.total_laps`, `entry.total_time`, `entry.best_lap_time`,
`entry.average_lap_time`, `entry.status`. -/
def frontendRowFieldNames : List String :=
  ["position", "rider_number", "rider_name", "team", "category", "total_laps",
   "total_time", "best_lap_time", "average_lap_time", "status"]

/- ## Frontend `formatTime` (claim C9), translated from `frontend/App.js`. -/

/-- A JavaScript value reaching `formatTime`: a number, `NaN`, `null` or
`undefined`. -/
inductive JsTime
  | num (q : ℚ)
  | nan
  | nullv
  | undefinedv

/-- JavaScript falsiness of such a value: `0`, `NaN`, `null` and `undefined`
are falsy. -/
def jsFalsy : JsTime → Bool
  | JsTime.num q => decide (q = 0)
  | JsTime.nan => true
  | JsTime.nullv => true
  | JsTime.undefinedv => true

/-- Truncation toward zero, as JavaScript division underlying `%` does. -/
def ratTrunc (q : ℚ) : Int :=
  if q < 0 then Int.ceil q else Int.floor q

/-- The JavaScript `%` operator on numbers: remainder with the dividend's
sign. -/
def jsMod (a b : ℚ) : ℚ := a - b * ((ratTrunc (a / b) : ℤ) : ℚ)

/-- JavaScript `String.prototype.padStart` with a single pad character. -/
def padStart (s : String) (w : Nat) (c : Char) : String :=
  String.mk (List.replicate (w - s.length) c) ++ s

/-- JavaScript `Number.prototype.toFixed(3)`: round to the nearest multiple
of 1/1000, ties toward the larger value, and render with exactly three
decimal digits. -/
def toFixed3 (q : ℚ) : String :=
  if Int.floor (q * 1000 + 1 / 2) < 0 then
    "-" ++ toString ((-Int.floor (q * 1000 + 1 / 2)).toNat / 1000) ++ "." ++
      padStart (toString ((-Int.floor (q * 1000 + 1 / 2)).toNat % 1000)) 3 '0'
  else
    toString ((Int.floor (q * 1000 + 1 / 2)).toNat / 1000) ++ "." ++
      padStart (toString ((Int.floor (q * 1000 + 1 / 2)).toNat % 1000)) 3 '0'

/-- `formatTime` from `frontend/App.js`: falsy inputs render as `"-"`;
otherwise minutes are `Math.floor(seconds / 60)` and the seconds part is
`(seconds % 60).toFixed(3).padStart(6, '0')`.  The non-number match arms are
unreachable because every non-number input is falsy. -/
def formatTime (v : JsTime) : String :=
  if jsFalsy v then "-"
  else
    match v with
    | JsTime.num q =>
        toString (Int.floor (q / 60)) ++ ":" ++ padStart (toFixed3 (jsMod q 60)) 6 '0'
    | JsTime.nan => "-"
    | JsTime.nullv => "-"
    | JsTime.undefinedv => "-"

/- ## Frontend `fetchLeaderboard` (claim C10), translated from
`frontend/App.js`. -/

/-- A JSON value in a leaderboard response body. -/
inductive JsonVal
  | arr (rows : List String)
  | nul
  | num (q : ℚ)
  | str (s : String)
deriving DecidableEq

/-- JavaScript falsiness of a JSON value: `null`, `0` and `""` are falsy;
arrays (even empty ones) are truthy objects. -/
def jsonFalsy : JsonVal → Bool
  | JsonVal.arr _ => false
  | JsonVal.nul => true
  | JsonVal.num q => decide (q = 0)
  | JsonVal.str s => decide (s = "")

/-- The outcome of `fetch` + `response.json()`: a parsed body, or a raised
error. -/
inductive LBResponse
  | ok (body : List (String × JsonVal))
  | thrown

/-- The component state touched by `fetchLeaderboard`: the displayed
leaderboard and the console error log. -/
structure DashboardState where
  leaderboard : JsonVal
  errorLog : List String
deriving DecidableEq

/-- `fetchLeaderboard` from `frontend/App.js`: on a parsed response it runs
`setLeaderboard(data.entries || [])` — a missing or falsy `entries` field
yields the empty list; on a raised error it only logs
(`console.error('Error fetching leaderboard:', error)`) and leaves the
displayed leaderboard unchanged. -/
def fetchLeaderboard (m : DashboardState) (resp : LBResponse) : DashboardState :=
  match resp with
  | LBResponse.thrown =>
      { m with errorLog := m.errorLog ++ ["Error fetching leaderboard"] }
  | LBResponse.ok body =>
      match body.lookup "entries" with
      | none => { m with leaderboard := JsonVal.arr [] }
      | some v => { m with leaderboard := if jsonFalsy v then JsonVal.arr [] else v }

/- ## Theorems. -/

/- ## Lifecycle theorems (claims C6, C7). -/

/-- C6: `StartEvent` returns `InvalidTransition` if and only if the event is
not in state `Created`, and on success records `start_time` and moves the
event to `Active`; `StopEvent` returns `InvalidTransition` if and only if the
event is not `Active`, and on success moves it to `Stopped`; a failed
operation changes nothing (`applyOp` is the identity there), and in
particular `StopEvent` on a `Created` event returns `InvalidTransition` and
has no side effects. -/
theorem event_lifecycle_correct :
    (∀ st : RaceState, ∀ ts : ℚ,
      (startEvent st ts = Except.error RMError.InvalidTransition ↔
        st.event.state ≠ EventState.Created)) ∧
    (∀ st : RaceState, ∀ ts : ℚ, ∀ st' : RaceState, startEvent st ts = Except.ok st' →
      st'.event.state = EventState.Active ∧ st'.event.start_time = ts ∧
      st'.records = st.records ∧ st'.event.race_type = st.event.race_type ∧
      st'.event.max_laps = st.event.max_laps ∧
      st'.event.max_duration = st.event.max_duration) ∧
    (∀ st : RaceState,
      (stopEvent st = Except.error RMError.InvalidTransition ↔
        st.event.state ≠ EventState.Active)) ∧
    (∀ st : RaceState, ∀ st' : RaceState, stopEvent st = Except.ok st' →
      st'.event.state = EventState.Stopped ∧ st'.records = st.records ∧
      st'.event.start_time = st.event.start_time) ∧
    (∀ st : RaceState, ∀ ts : ℚ, st.event.state ≠ EventState.Created →
      applyOp st (Op.start ts) = st) ∧
    (∀ st : RaceState, st.event.state ≠ EventState.Active → applyOp st Op.stop = st) ∧
    (∀ st : RaceState, st.event.state = EventState.Created →
      stopEvent st = Except.error RMError.InvalidTransition ∧ applyOp st Op.stop = st) := by
  refine ⟨?_, ?_, ?_, ?_, ?_, ?_, ?_⟩
  · intro st ts
    unfold startEvent
    by_cases h : st.event.state = EventState.Created <;> simp [h]
  · intro st ts st' h
    unfold startEvent at h
    by_cases hc : st.event.state = EventState.Created
    · simp only [hc, if_pos] at h
      cases h
      simp
    · simp [hc] at h
  · intro st
    unfold stopEvent
    by_cases h : st.event.state = EventState.Active <;> simp [h]
  · intro st st' h
    unfold stopEvent at h
    by_cases hc : st.event.state = EventState.Active
    · simp only [hc, if_pos] at h
      cases h
      simp
    · simp [hc] at h
  · intro st ts h
    unfold applyOp startEvent
    simp [h]
  · intro st h
    unfold applyOp stopEvent
    simp [h]
  · intro st h
    have hne : st.event.state ≠ EventState.Active := by
      rw [h]
      intro hcon
      cases hcon
    constructor
    · unfold stopEvent
      simp [hne]
    · unfold applyOp stopEvent
      simp [hne]

/-- C6 witness: the lifecycle theorem applied to a concrete `Created` event. -/
theorem event_lifecycle_correct_witness :
    stopEvent (initState demoCreatedEv) = Except.error RMError.InvalidTransition ∧
    applyOp (initState demoCreatedEv) Op.stop = initState demoCreatedEv :=
  event_lifecycle_correct.2.2.2.2.2.2 (initState demoCreatedEv) rfl

/-- C7: an accepted tag event creates no lap record and leaves the race state
unchanged when the event is not `Active`, when the rider has already reached
`max_laps` in a lap-based event, or when the rider's cumulative time already
exceeds `max_duration` in a time-based event. -/
theorem late_crossings_are_noops :
    (∀ st : RaceState, ∀ r : Nat, ∀ ts : ℚ, st.event.state ≠ EventState.Active →
      processCrossing st r ts = st) ∧
    (∀ st : RaceState, ∀ r : Nat, ∀ ts : ℚ, st.event.race_type = RaceType.laps →
      st.event.max_laps ≤ (riderRecs st r).length → processCrossing st r ts = st) ∧
    (∀ st : RaceState, ∀ r : Nat, ∀ ts : ℚ, st.event.race_type = RaceType.time →
      st.event.max_duration < riderCum st r → processCrossing st r ts = st) := by
  refine ⟨?_, ?_, ?_⟩
  · intro st r ts h
    unfold processCrossing
    simp [h]
  · intro st r ts hty hle
    unfold processCrossing
    by_cases hs : st.event.state = EventState.Active
    · have hlim : limitReached st r = true := by
        unfold limitReached
        rw [hty]
        simpa using hle
      simp [hs, hlim]
    · simp [hs]
  · intro st r ts hty hlt
    unfold processCrossing
    by_cases hs : st.event.state = EventState.Active
    · have hlim : limitReached st r = true := by
        unfold limitReached
        rw [hty]
        simpa using hlt
      simp [hs, hlim]
    · simp [hs]

/- ## Lap number sequencing (claim C3). -/

/-- The lap record built for rider `r` is attributed to rider `r`. -/
theorem newLapRecord_rider_id (st : RaceState) (r : Nat) (ts : ℚ) :
    (newLapRecord st r ts).rider_id = r := by
  unfold newLapRecord
  cases h : (riderRecs st r).getLast? <;> simp [h]

/-- Filtering a one-element extension of the record log. -/
theorem riderRecsOf_append (l : List LapRecord) (x : LapRecord) (r : Nat) :
    riderRecsOf (l ++ [x]) r
      = riderRecsOf l r ++ (if x.rider_id == r then [x] else []) := by
  unfold riderRecsOf
  rw [List.filter_append]
  by_cases h : x.rider_id == r <;> simp [h]

/-- `List.range'` from 1, extended by one element. -/
theorem range'_one_concat (m : Nat) :
    List.range' 1 (m + 1) = List.range' 1 m ++ [m + 1] := by
  have h0 : List.range' 1 (m + 1) = List.range' 1 m ++ [1 + 1 * m] :=
    List.range'_concat 1 m
  simpa [Nat.add_comm] using h0

/-- Last element of `List.range' 1 (m+1)`. -/
theorem range'_one_getLast (m : Nat) :
    (List.range' 1 (m + 1)).getLast? = some (m + 1) := by
  rw [range'_one_concat]
  exact List.getLast?_concat _

/-- Every operation preserves the lap-number invariant. -/
theorem lapNumbersOk_applyOp (st : RaceState) (op : Op) (h : lapNumbersOk st) :
    lapNumbersOk (applyOp st op) := by
  cases op with
  | start ts =>
      intro r
      have hrec : riderRecs (applyOp st (Op.start ts)) r = riderRecs st r := by
        unfold applyOp startEvent riderRecs
        by_cases hc : st.event.state = EventState.Created <;> simp [hc]
      rw [hrec]
      exact h r
  | stop =>
      intro r
      have hrec : riderRecs (applyOp st Op.stop) r = riderRecs st r := by
        unfold applyOp stopEvent riderRecs
        by_cases hc : st.event.state = EventState.Active <;> simp [hc]
      rw [hrec]
      exact h r
  | readerDisconnect rid => exact h
  | readerReconnect rid => exact h
  | cross rr ts =>
      intro r
      show (riderRecs (processCrossing st rr ts) r).map (fun lr => lr.lap_number)
            = List.range' 1 (riderRecs (processCrossing st rr ts) r).length
      unfold processCrossing
      by_cases hs : st.event.state = EventState.Active
      · by_cases hlim : limitReached st rr = true
        · rw [if_neg (by simp [hs]), if_pos hlim]
          exact h r
        · rw [if_neg (by simp [hs]), if_neg hlim]
          have hrec : riderRecs { st with records := st.records ++ [newLapRecord st rr ts] } r
              = riderRecs st r ++ (if rr == r then [newLapRecord st rr ts] else []) := by
            unfold riderRecs
            rw [show ({ st with records := st.records ++ [newLapRecord st rr ts] } : RaceState).records
                  = st.records ++ [newLapRecord st rr ts] from rfl]
            rw [riderRecsOf_append, newLapRecord_rider_id]
          rw [hrec]
          by_cases hrr : rr = r
          · subst hrr
            simp only [beq_self_eq_true, if_true]
            cases hL : (riderRecs st rr).getLast? with
            | none =>
                have hnil : riderRecs st rr = [] := List.getLast?_eq_none_iff.mp hL
                have hnum : (newLapRecord st rr ts).lap_number = 1 := by
                  unfold newLapRecord
                  rw [hL]
                rw [hnil]
                simp [hnum, List.range']
            | some prev =>
                have hne : riderRecs st rr ≠ [] := by
                  intro hcon
                  rw [hcon] at hL
                  cases hL
                have hmap := h rr
                cases hlen : (riderRecs st rr).length with
                | zero =>
                    exact absurd (List.length_eq_zero.mp hlen) hne
                | succ m =>
                    have hprev : prev.lap_number = m + 1 := by
                      have h1 : ((riderRecs st rr).map (fun lr => lr.lap_number)).getLast?
                          = some prev.lap_number := by
                        rw [List.getLast?_map, hL]
                        rfl
                      rw [hmap, hlen, range'_one_getLast] at h1
                      exact (Option.some.injEq _ _).mp h1.symm
                    have hnum : (newLapRecord st rr ts).lap_number = m + 2 := by
                      unfold newLapRecord
                      rw [hL]
                      simp [hprev]
                    rw [List.map_append, List.length_append, hmap, hlen]
                    simp only [List.map_cons, List.map_nil, hnum, List.length_cons,
                      List.length_nil, Nat.zero_add]
                    have hr2 : List.range' 1 (m + 1 + 1) = List.range' 1 (m + 1) ++ [m + 2] := by
                      simpa using range'_one_concat (m + 1)
                    rw [hr2]
          · have hbeq : (rr == r) = false := by
              simp [hrr]
            simpa [hbeq] using h r
      · rw [if_pos hs]
        exact h r

/-- The invariant holds along any run of operations. -/
theorem lapNumbersOk_runOps (ops : List Op) (st : RaceState) (h : lapNumbersOk st) :
    lapNumbersOk (runOps st ops) := by
  induction ops generalizing st with
  | nil => exact h
  | cons op rest ih =>
      show lapNumbersOk (runOps (applyOp st op) rest)
      exact ih (applyOp st op) (lapNumbersOk_applyOp st op h)

/-- C3: in any run of operations from a fresh event — lifecycle transitions,
accepted crossings, reader disconnects and reconnects — every rider's lap
records carry lap numbers exactly `1, 2, 3, ...` in creation order, with no
gaps and no duplicates. -/
theorem lap_numbers_sequential (ev : RaceEvent) (ops : List Op) (r : Nat) :
    (riderRecs (runOps (initState ev) ops) r).map (fun lr => lr.lap_number)
      = List.range' 1 (riderRecs (runOps (initState ev) ops) r).length := by
  have hinit : lapNumbersOk (initState ev) := by
    intro r0
    simp [riderRecs, riderRecsOf, initState, List.range']
  exact lapNumbersOk_runOps ops (initState ev) hinit r

/-- C7 witness: a crossing on a stopped event, a crossing past the lap limit,
and a crossing past the duration limit are all no-ops on concrete states. -/
theorem late_crossings_are_noops_witness :
    processCrossing (initState demoStoppedEv) 1 5 = initState demoStoppedEv ∧
    processCrossing (initState demoZeroLapEv) 1 5 = initState demoZeroLapEv ∧
    processCrossing demoOverTimeState 1 150 = demoOverTimeState :=
  ⟨late_crossings_are_noops.1 _ 1 5 (by decide),
   late_crossings_are_noops.2.1 _ 1 5 rfl (by decide),
   late_crossings_are_noops.2.2 _ 1 150 rfl (by decide)⟩

/- ## Debounce Filter theorems (claim C2). -/

/-- Debounce step when the pair has no stored timestamp: accept. -/
theorem debounceStep_none (abt : ℚ) (st : DebounceState) (e : TagEvent)
    (h : st.lookup (tagKey e) = none) :
    debounceStep abt st e = ((tagKey e, e.timestamp) :: st, true) := by
  unfold debounceStep
  rw [h]

/-- Debounce step inside the suppression window: suppress, state unchanged. -/
theorem debounceStep_suppress (abt : ℚ) (st : DebounceState) (e : TagEvent) (last : ℚ)
    (h : st.lookup (tagKey e) = some last) (hlt : e.timestamp - last < abt) :
    debounceStep abt st e = (st, false) := by
  unfold debounceStep
  rw [h]
  exact if_pos hlt

/-- Debounce step past the suppression window: accept, timestamp updated. -/
theorem debounceStep_accept (abt : ℚ) (st : DebounceState) (e : TagEvent) (last : ℚ)
    (h : st.lookup (tagKey e) = some last) (hge : ¬e.timestamp - last < abt) :
    debounceStep abt st e = ((tagKey e, e.timestamp) :: st, true) := by
  unfold debounceStep
  rw [h]
  exact if_neg hge

/-- A run of events that all hit the same debounce slot, all within `abt` of
the stored last-accepted timestamp, is entirely suppressed. -/
theorem debounceFlags_all_suppressed (abt : ℚ) (k : String × String) (t0 : ℚ)
    (es : List TagEvent) (st : DebounceState) (hst : st.lookup k = some t0)
    (hes : ∀ e' ∈ es, tagKey e' = k ∧ e'.timestamp - t0 < abt) :
    debounceFlags abt st es = List.replicate es.length false := by
  induction es with
  | nil => rfl
  | cons e' rest ih =>
      have he' := hes e' (List.mem_cons_self e' rest)
      have hstep : debounceStep abt st e' = (st, false) :=
        debounceStep_suppress abt st e' t0 (he'.1 ▸ hst) he'.2
      show (debounceStep abt st e').2 :: debounceFlags abt (debounceStep abt st e').1 rest
            = List.replicate (rest.length + 1) false
      rw [hstep]
      show false :: debounceFlags abt st rest = List.replicate (rest.length + 1) false
      rw [ih (fun e'' he'' => hes e'' (List.mem_cons_of_mem e' he''))]
      rfl

/-- C2 (amended): a tag event is forwarded if and only if there is no
last-accepted timestamp for its `(reader, epc)` pair within the preceding
`anti_bounce_time`; a suppressed event leaves the debounce state unchanged,
while an accepted event records its timestamp; and in any run of events from
one pair that all lie within `anti_bounce_time` of the first event, only the
first is forwarded. -/
theorem debounce_forwarding :
    (∀ abt : ℚ, ∀ st : DebounceState, ∀ e : TagEvent,
      ((debounceStep abt st e).2 = true ↔
        (∀ last, st.lookup (tagKey e) = some last → abt ≤ e.timestamp - last))) ∧
    (∀ abt : ℚ, ∀ st : DebounceState, ∀ e : TagEvent,
      (debounceStep abt st e).2 = false → (debounceStep abt st e).1 = st) ∧
    (∀ abt : ℚ, ∀ st : DebounceState, ∀ e : TagEvent,
      (debounceStep abt st e).2 = true →
      ((debounceStep abt st e).1).lookup (tagKey e) = some e.timestamp) ∧
    (∀ abt : ℚ, ∀ e : TagEvent, ∀ es : List TagEvent, ∀ st : DebounceState,
      st.lookup (tagKey e) = none →
      (∀ e' ∈ es, tagKey e' = tagKey e ∧ e'.timestamp - e.timestamp < abt) →
      debounceFlags abt st (e :: es) = true :: List.replicate es.length false) := by
  refine ⟨?_, ?_, ?_, ?_⟩
  · intro abt st e
    cases hl : st.lookup (tagKey e) with
    | none =>
        rw [debounceStep_none abt st e hl]
        simp [hl]
    | some last =>
        by_cases hlt : e.timestamp - last < abt
        · rw [debounceStep_suppress abt st e last hl hlt]
          constructor
          · intro hcon
            exact Bool.noConfusion hcon
          · intro hforall
            exact absurd hlt (not_lt.mpr (hforall last rfl))
        · rw [debounceStep_accept abt st e last hl hlt]
          constructor
          · intro _ last' hl'
            cases hl'
            exact not_lt.mp hlt
          · intro _
            rfl
  · intro abt st e h
    cases hl : st.lookup (tagKey e) with
    | none =>
        rw [debounceStep_none abt st e hl] at h
        cases h
    | some last =>
        by_cases hlt : e.timestamp - last < abt
        · rw [debounceStep_suppress abt st e last hl hlt]
        · rw [debounceStep_accept abt st e last hl hlt] at h
          cases h
  · intro abt st e h
    cases hl : st.lookup (tagKey e) with
    | none =>
        rw [debounceStep_none abt st e hl]
        simp [List.lookup]
    | some last =>
        by_cases hlt : e.timestamp - last < abt
        · rw [debounceStep_suppress abt st e last hl hlt] at h
          cases h
        · rw [debounceStep_accept abt st e last hl hlt]
          simp [List.lookup]
  · intro abt e es st hnone hes
    show (debounceStep abt st e).2 :: debounceFlags abt (debounceStep abt st e).1 es
          = true :: List.replicate es.length false
    rw [debounceStep_none abt st e hnone]
    show true :: debounceFlags abt ((tagKey e, e.timestamp) :: st) es
          = true :: List.replicate es.length false
    rw [debounceFlags_all_suppressed abt (tagKey e) e.timestamp es _ (by simp [List.lookup]) hes]

/-- C2 witness: two events from reader `R1` on the same EPC, 1 second apart
with a 2 second window — only the first is forwarded. -/
theorem debounce_forwarding_witness :
    debounceFlags 2 [] [⟨"R1", "E20001", 0⟩, ⟨"R1", "E20001", 1⟩] = [true, false] :=
  debounce_forwarding.2.2.2 2 ⟨"R1", "E20001", 0⟩ [⟨"R1", "E20001", 1⟩] [] rfl
    (by
      intro e' he'
      simp only [List.mem_singleton] at he'
      subst he'
      refine ⟨rfl, by norm_num⟩)

/-- C2 counterexample: three events from one `(reader, epc)` pair at times
0, 1, 2 with `anti_bounce_time = 2`; consecutive events are spaced less than
2 seconds apart, yet the third event is forwarded, because the suppressed
second event did not update the stored timestamp.  So "only the first is
forwarded" fails for runs that are merely consecutively spaced below the
window. -/
theorem debounce_spacing_counterexample :
    List.Chain' (fun a b => b.timestamp - a.timestamp < 2)
      [(⟨"R1", "E20001", 0⟩ : TagEvent), ⟨"R1", "E20001", 1⟩, ⟨"R1", "E20001", 2⟩] ∧
    (∀ e' ∈ [(⟨"R1", "E20001", 0⟩ : TagEvent), ⟨"R1", "E20001", 1⟩, ⟨"R1", "E20001", 2⟩],
      tagKey e' = ("R1", "E20001")) ∧
    debounceFlags 2 []
      [(⟨"R1", "E20001", 0⟩ : TagEvent), ⟨"R1", "E20001", 1⟩, ⟨"R1", "E20001", 2⟩]
      = [true, false, true] := by
  refine ⟨?_, ?_, ?_⟩
  · simp only [List.chain'_cons, List.chain'_singleton, and_true]
    norm_num
  · intro e' he'
    simp only [List.mem_cons, List.not_mem_nil, or_false] at he'
    rcases he' with h | h | h <;> subst h <;> rfl
  · have h1 : debounceStep 2 ([] : DebounceState) ⟨"R1", "E20001", 0⟩
        = ([(("R1", "E20001"), (0 : ℚ))], true) :=
      debounceStep_none 2 [] _ rfl
    have h2 : debounceStep 2 [(("R1", "E20001"), (0 : ℚ))] ⟨"R1", "E20001", 1⟩
        = ([(("R1", "E20001"), (0 : ℚ))], false) := by
      refine debounceStep_suppress 2 _ _ 0 (by simp [tagKey, List.lookup]) ?_
      norm_num
    have h3 : debounceStep 2 [(("R1", "E20001"), (0 : ℚ))] ⟨"R1", "E20001", 2⟩
        = ([(("R1", "E20001"), (2 : ℚ)), (("R1", "E20001"), (0 : ℚ))], true) := by
      refine debounceStep_accept 2 _ _ 0 (by simp [tagKey, List.lookup]) ?_
      norm_num
    show (debounceStep 2 [] ⟨"R1", "E20001", 0⟩).2 ::
          debounceFlags 2 (debounceStep 2 [] ⟨"R1", "E20001", 0⟩).1
            [⟨"R1", "E20001", 1⟩, ⟨"R1", "E20001", 2⟩]
          = [true, false, true]
    rw [h1]
    show true :: (debounceStep 2 [(("R1", "E20001"), (0 : ℚ))] ⟨"R1", "E20001", 1⟩).2 ::
          debounceFlags 2 (debounceStep 2 [(("R1", "E20001"), (0 : ℚ))] ⟨"R1", "E20001", 1⟩).1
            [⟨"R1", "E20001", 2⟩]
          = [true, false, true]
    rw [h2]
    show true :: false ::
          (debounceStep 2 [(("R1", "E20001"), (0 : ℚ))] ⟨"R1", "E20001", 2⟩).2 ::
          debounceFlags 2 (debounceStep 2 [(("R1", "E20001"), (0 : ℚ))] ⟨"R1", "E20001", 2⟩).1 []
          = [true, false, true]
    rw [h3]
    rfl

/- ## Lap timing and accumulation (claim C4). -/

/-- A list's optional last element is a member of the list. -/
theorem getLast?_mem_self {α : Type} : ∀ (l : List α) (a : α), l.getLast? = some a → a ∈ l := by
  intro l
  induction l with
  | nil => intro a h; cases h
  | cons x xs ih =>
      intro a h
      cases hx : xs with
      | nil =>
          rw [hx] at h
          simp [List.getLast?] at h
          simp [h]
      | cons y ys =>
          rw [hx] at h
          rw [List.getLast?_cons_cons] at h
          right
          exact hx ▸ ih a (hx ▸ h)

/-- An accepted crossing appends exactly one lap record. -/
theorem processCrossing_accept (st : RaceState) (r : Nat) (ts : ℚ)
    (hs : st.event.state = EventState.Active) (hlim : limitReached st r = false) :
    processCrossing st r ts = { st with records := st.records ++ [newLapRecord st r ts] } := by
  unfold processCrossing
  rw [if_neg (by simp [hs]), if_neg (by simp [hlim])]

/-- A rejected crossing is a strict no-op. -/
theorem processCrossing_eq_self (st : RaceState) (r : Nat) (ts : ℚ)
    (h : st.event.state ≠ EventState.Active ∨ limitReached st r = true) :
    processCrossing st r ts = st := by
  unfold processCrossing
  rcases h with h | h
  · rw [if_pos h]
  · by_cases hs : st.event.state = EventState.Active
    · rw [if_neg (by simp [hs]), if_pos h]
    · rw [if_pos hs]

/-- `processCrossing` either leaves the record log unchanged or appends the
new lap record. -/
theorem processCrossing_records (st : RaceState) (r : Nat) (ts : ℚ) :
    (processCrossing st r ts).records = st.records ∨
    (processCrossing st r ts).records = st.records ++ [newLapRecord st r ts] := by
  by_cases hs : st.event.state = EventState.Active
  · by_cases hl : limitReached st r = true
    · left
      rw [processCrossing_eq_self st r ts (Or.inr hl)]
    · right
      rw [processCrossing_accept st r ts hs (by simpa using hl)]
  · left
    rw [processCrossing_eq_self st r ts (Or.inl hs)]

/-- The new lap record carries the crossing timestamp. -/
theorem newLapRecord_timestamp (st : RaceState) (r : Nat) (ts : ℚ) :
    (newLapRecord st r ts).timestamp = ts := by
  unfold newLapRecord
  cases h : (riderRecs st r).getLast? <;> simp [h]

/-- Cumulative time of the new lap record when a previous record exists. -/
theorem newLapRecord_cum_of_last (st : RaceState) (r : Nat) (ts : ℚ) (prev : LapRecord)
    (h : (riderRecs st r).getLast? = some prev) :
    (newLapRecord st r ts).cumulative_time
      = prev.cumulative_time + (ts - prev.timestamp) := by
  unfold newLapRecord
  rw [h]

/-- Per-rider view of an accepted crossing. -/
theorem riderRecs_accept (st : RaceState) (rr : Nat) (ts : ℚ)
    (hs : st.event.state = EventState.Active) (hlim : limitReached st rr = false) (r : Nat) :
    riderRecs (processCrossing st rr ts) r
      = riderRecs st r ++ (if rr == r then [newLapRecord st rr ts] else []) := by
  rw [processCrossing_accept st rr ts hs hlim]
  unfold riderRecs
  show riderRecsOf (st.records ++ [newLapRecord st rr ts]) r = _
  rw [riderRecsOf_append, newLapRecord_rider_id]

/-- Along a run of crossings whose timestamps are pairwise non-decreasing,
every rider's cumulative times form a non-decreasing chain. -/
theorem processList_cum_chain (cs : List (Nat × ℚ)) :
    ∀ st : RaceState,
      (∀ lr ∈ st.records, ∀ c ∈ cs, lr.timestamp ≤ c.2) →
      List.Pairwise (fun a b => a.2 ≤ b.2) cs →
      (∀ r, List.Chain' (fun a b => a ≤ b)
        ((riderRecs st r).map (fun lr => lr.cumulative_time))) →
      ∀ r, List.Chain' (fun a b => a ≤ b)
        ((riderRecs (processList st cs) r).map (fun lr => lr.cumulative_time)) := by
  induction cs with
  | nil =>
      intro st _ _ hch r
      exact hch r
  | cons c rest ih =>
      intro st hts hpw hch r
      show List.Chain' (fun a b => a ≤ b)
        ((riderRecs (processList (processCrossing st c.1 c.2) rest) r).map
          (fun lr => lr.cumulative_time))
      refine ih (processCrossing st c.1 c.2) ?_ hpw.of_cons ?_ r
      · intro lr hlr c' hc'
        rcases processCrossing_records st c.1 c.2 with hrec | hrec
        · rw [hrec] at hlr
          exact hts lr hlr c' (List.mem_cons_of_mem c hc')
        · rw [hrec] at hlr
          rcases List.mem_append.mp hlr with h | h
          · exact hts lr h c' (List.mem_cons_of_mem c hc')
          · have hl : lr = newLapRecord st c.1 c.2 := List.mem_singleton.mp h
            rw [hl, newLapRecord_timestamp]
            exact (List.pairwise_cons.mp hpw).1 c' hc'
      · intro r'
        by_cases hs : st.event.state = EventState.Active
        · by_cases hl : limitReached st c.1 = true
          · rw [processCrossing_eq_self st c.1 c.2 (Or.inr hl)]
            exact hch r'
          · rw [riderRecs_accept st c.1 c.2 hs (by simpa using hl) r']
            by_cases hrr : (c.1 == r') = true
            · rw [if_pos hrr]
              rw [List.map_append, List.chain'_append]
              refine ⟨hch r', ?_, ?_⟩
              · exact List.chain'_singleton _
              · intro x hx y hy
                simp only [List.map_cons, List.map_nil, List.head?_cons, Option.mem_def,
                  Option.some.injEq] at hy
                rw [List.getLast?_map] at hx
                cases hL : (riderRecs st r').getLast? with
                | none =>
                    rw [hL] at hx
                    cases hx
                | some prev =>
                    rw [hL] at hx
                    simp only [Option.map_some', Option.mem_def, Option.some.injEq] at hx
                    have hr'c : c.1 = r' := by
                      simpa using hrr
                    have hcum : (newLapRecord st c.1 c.2).cumulative_time
                        = prev.cumulative_time + (c.2 - prev.timestamp) := by
                      rw [hr'c]
                      exact newLapRecord_cum_of_last st r' c.2 prev hL
                    have hprevmem : prev ∈ st.records := by
                      have h1 : prev ∈ riderRecs st r' := getLast?_mem_self _ prev hL
                      exact List.mem_of_mem_filter h1
                    have hts' : prev.timestamp ≤ c.2 :=
                      hts prev hprevmem c (List.mem_cons_self c rest)
                    rw [← hy, ← hx, hcum]
                    linarith
            · rw [if_neg hrr]
              rw [List.append_nil]
              exact hch r'
        · rw [processCrossing_eq_self st c.1 c.2 (Or.inl hs)]
          exact hch r'

/-- C4 (amended): for an accepted crossing in an Active event, the first lap
of a rider gets `lap_time = timestamp - event.start_time` and
`cumulative_time = lap_time`, and each later lap gets
`lap_time = timestamp - previous.timestamp` and
`cumulative_time = previous.cumulative_time + lap_time`; along any run of
crossings with non-decreasing timestamps, each rider's cumulative time is
monotonically non-decreasing; and for an event started at t=0 with crossings
at t=30.2s and t=61.0s the rider's laps are `{1: 30.2s, 2: 30.8s}` with
`cumulative_time = 61.0s` (the t=0 instant is the event start, not a scored
crossing: scoring a crossing at t=0 as well would create a third lap record
of lap_time 0). -/
theorem lap_time_accumulation :
    (∀ st : RaceState, ∀ r : Nat, ∀ ts : ℚ,
      st.event.state = EventState.Active → limitReached st r = false →
      riderRecs st r = [] →
      riderRecs (processCrossing st r ts) r
        = [{ rider_id := r, lap_number := 1, lap_time := ts - st.event.start_time,
             cumulative_time := ts - st.event.start_time, timestamp := ts }]) ∧
    (∀ st : RaceState, ∀ r : Nat, ∀ ts : ℚ, ∀ prev : LapRecord,
      st.event.state = EventState.Active → limitReached st r = false →
      (riderRecs st r).getLast? = some prev →
      riderRecs (processCrossing st r ts) r
        = riderRecs st r ++
            [{ rider_id := r, lap_number := prev.lap_number + 1,
               lap_time := ts - prev.timestamp,
               cumulative_time := prev.cumulative_time + (ts - prev.timestamp),
               timestamp := ts }]) ∧
    (∀ st : RaceState, ∀ cs : List (Nat × ℚ), st.records = [] →
      List.Pairwise (fun a b => a.2 ≤ b.2) cs →
      ∀ r : Nat, List.Chain' (fun a b => a ≤ b)
        ((riderRecs (processList st cs) r).map (fun lr => lr.cumulative_time))) ∧
    ((riderRecs (processList (initState demoActiveEv) [(1, 151/5), (1, 61)]) 1).map
        (fun lr => (lr.lap_number, lr.lap_time))
      = [(1, 151/5), (2, 154/5)] ∧
     riderCum (processList (initState demoActiveEv) [(1, 151/5), (1, 61)]) 1 = 61) := by
  refine ⟨?_, ?_, ?_, ?_, ?_⟩
  · intro st r ts hs hlim hempty
    rw [riderRecs_accept st r ts hs hlim r]
    have hnone : (riderRecs st r).getLast? = none := by
      rw [hempty]
      rfl
    have hnew : newLapRecord st r ts
        = { rider_id := r, lap_number := 1, lap_time := ts - st.event.start_time,
            cumulative_time := ts - st.event.start_time, timestamp := ts } := by
      unfold newLapRecord
      rw [hnone]
    rw [hnew, hempty]
    simp
  · intro st r ts prev hs hlim hlast
    rw [riderRecs_accept st r ts hs hlim r]
    have hnew : newLapRecord st r ts
        = { rider_id := r, lap_number := prev.lap_number + 1,
            lap_time := ts - prev.timestamp,
            cumulative_time := prev.cumulative_time + (ts - prev.timestamp),
            timestamp := ts } := by
      unfold newLapRecord
      rw [hlast]
    rw [hnew]
    simp
  · intro st cs hrec hpw r
    refine processList_cum_chain cs st ?_ hpw ?_ r
    · intro lr hlr c hc
      rw [hrec] at hlr
      cases hlr
    · intro r'
      unfold riderRecs riderRecsOf
      rw [hrec]
      simp
  · have hlaps : riderRecs (processList (initState demoActiveEv) [(1, 151/5), (1, 61)]) 1
        = [⟨1, 1, 151/5 - 0, 151/5 - 0, 151/5⟩,
           ⟨1, 2, 61 - 151/5, 151/5 - 0 + (61 - 151/5), 61⟩] := rfl
    rw [hlaps]
    simp only [List.map_cons, List.map_nil]
    norm_num
  · have hcum : riderCum (processList (initState demoActiveEv) [(1, 151/5), (1, 61)]) 1
        = 151/5 - 0 + (61 - 151/5) := rfl
    rw [hcum]
    norm_num

/-- C4 witness: the first-lap formula instantiated on a concrete crossing at
t=30 in the demo active event. -/
theorem lap_time_accumulation_witness :
    riderRecs (processCrossing (initState demoActiveEv) 1 30) 1
      = [{ rider_id := 1, lap_number := 1,
           lap_time := 30 - (initState demoActiveEv).event.start_time,
           cumulative_time := 30 - (initState demoActiveEv).event.start_time,
           timestamp := 30 }] :=
  lap_time_accumulation.1 (initState demoActiveEv) 1 30 rfl rfl rfl

/-- C4 counterexample: scoring the spec scenario literally — three crossings
at t=0, t=30.2 and t=61.0 on an event started at t=0 — produces three lap
records `{1: 0s, 2: 30.2s, 3: 30.8s}` (all three crossings pass the 2 second
debounce window), not the two laps `{1: 30.2s, 2: 30.8s}` stated by the
claim. -/
theorem lap_time_scenario_counterexample :
    debounceFlags 2 []
      [(⟨"R1", "E20001", 0⟩ : TagEvent), ⟨"R1", "E20001", 151/5⟩, ⟨"R1", "E20001", 61⟩]
      = [true, true, true] ∧
    (riderRecs (processList (initState demoActiveEv) [(1, 0), (1, 151/5), (1, 61)]) 1).map
        (fun lr => (lr.lap_number, lr.lap_time))
      = [(1, 0), (2, 151/5), (3, 154/5)] ∧
    ¬ ((riderRecs (processList (initState demoActiveEv) [(1, 0), (1, 151/5), (1, 61)]) 1).map
        (fun lr => (lr.lap_number, lr.lap_time))
      = [(1, 151/5), (2, 154/5)]) := by
  have hlaps : riderRecs (processList (initState demoActiveEv) [(1, 0), (1, 151/5), (1, 61)]) 1
      = [⟨1, 1, 0 - 0, 0 - 0, 0⟩,
         ⟨1, 2, 151/5 - 0, 0 - 0 + (151/5 - 0), 151/5⟩,
         ⟨1, 3, 61 - 151/5, 0 - 0 + (151/5 - 0) + (61 - 151/5), 61⟩] := rfl
  refine ⟨?_, ?_, ?_⟩
  · have h1 : debounceStep 2 ([] : DebounceState) ⟨"R1", "E20001", 0⟩
        = ([(("R1", "E20001"), (0 : ℚ))], true) :=
      debounceStep_none 2 [] _ rfl
    have h2 : debounceStep 2 [(("R1", "E20001"), (0 : ℚ))] ⟨"R1", "E20001", 151/5⟩
        = ([(("R1", "E20001"), (151/5 : ℚ)), (("R1", "E20001"), (0 : ℚ))], true) := by
      refine debounceStep_accept 2 _ _ 0 (by simp [tagKey, List.lookup]) ?_
      norm_num
    have h3 : debounceStep 2 [(("R1", "E20001"), (151/5 : ℚ)), (("R1", "E20001"), (0 : ℚ))]
          ⟨"R1", "E20001", 61⟩
        = ([(("R1", "E20001"), (61 : ℚ)), (("R1", "E20001"), (151/5 : ℚ)),
            (("R1", "E20001"), (0 : ℚ))], true) := by
      refine debounceStep_accept 2 _ _ (151/5) (by simp [tagKey, List.lookup]) ?_
      norm_num
    show (debounceStep 2 [] ⟨"R1", "E20001", 0⟩).2 ::
          debounceFlags 2 (debounceStep 2 [] ⟨"R1", "E20001", 0⟩).1
            [⟨"R1", "E20001", 151/5⟩, ⟨"R1", "E20001", 61⟩]
          = [true, true, true]
    rw [h1]
    show true :: (debounceStep 2 [(("R1", "E20001"), (0 : ℚ))] ⟨"R1", "E20001", 151/5⟩).2 ::
          debounceFlags 2
            (debounceStep 2 [(("R1", "E20001"), (0 : ℚ))] ⟨"R1", "E20001", 151/5⟩).1
            [⟨"R1", "E20001", 61⟩]
          = [true, true, true]
    rw [h2]
    show true :: true ::
          (debounceStep 2 [(("R1", "E20001"), (151/5 : ℚ)), (("R1", "E20001"), (0 : ℚ))]
            ⟨"R1", "E20001", 61⟩).2 ::
          debounceFlags 2
            (debounceStep 2 [(("R1", "E20001"), (151/5 : ℚ)), (("R1", "E20001"), (0 : ℚ))]
              ⟨"R1", "E20001", 61⟩).1 []
          = [true, true, true]
    rw [h3]
    rfl
  · rw [hlaps]
    simp only [List.map_cons, List.map_nil]
    norm_num
  · rw [hlaps]
    intro hcon
    simp only [List.map_cons, List.map_nil, List.cons.injEq, Prod.mk.injEq] at hcon
    exact List.cons_ne_nil _ _ hcon.2.2

/- ## Wiegand theorems (claim C5). -/

/-- `natToBits` produces exactly `w` bits. -/
theorem length_natToBits : ∀ (w n : Nat), (natToBits w n).length = w := by
  intro w
  induction w with
  | zero => intro n; rfl
  | succ m ih =>
      intro n
      show (decide (n % 2 = 1) :: natToBits m (n / 2)).length = m + 1
      simp [ih]

/-- Decoding the bits of `n` recovers `n` modulo `2 ^ w`. -/
theorem bitsToNat_natToBits : ∀ (w n : Nat), bitsToNat (natToBits w n) = n % 2 ^ w := by
  intro w
  induction w with
  | zero =>
      intro n
      simp [natToBits, bitsToNat, Nat.mod_one]
  | succ m ih =>
      intro n
      show bitsToNat (decide (n % 2 = 1) :: natToBits m (n / 2)) = n % 2 ^ (m + 1)
      unfold bitsToNat
      rw [ih (n / 2)]
      have hb : (cond (decide (n % 2 = 1)) 1 0) = n % 2 := by
        rcases Nat.mod_two_eq_zero_or_one n with h | h <;> simp [h]
      rw [hb, pow_succ, Nat.mul_comm (2 ^ m) 2, Nat.mod_mul]

/-- Decoding a frame assembled as front parity, 24 data bits, end parity. -/
theorem decodeW26_frame (p : Bool) (d : List Bool) (q : Bool) (hlen : d.length = 24) :
    decodeW26 (p :: (d ++ [q]))
      = if p = parityBit (d.take 12) ∧ q = !parityBit (d.drop 12)
        then Except.ok (bitsToNat d)
        else Except.error WiegandError.ParityError := by
  unfold decodeW26
  have hl : (p :: (d ++ [q])).length = 26 := by
    simp [hlen]
  rw [if_pos hl]
  have hd : ((p :: (d ++ [q])).drop 1).take 24 = d := by
    show (d ++ [q]).take 24 = d
    exact List.take_left' hlen
  have hlast : (p :: (d ++ [q])).getLastD false = q := by
    rw [List.getLastD_eq_getLast?]
    rw [show p :: (d ++ [q]) = (p :: d) ++ [q] from rfl]
    rw [List.getLast?_concat]
    rfl
  rw [hd, hlast]
  rfl

/-- Setting the last position of `l ++ [a]`. -/
theorem set_append_last {α : Type} : ∀ (l : List α) (a b : α),
    (l ++ [a]).set l.length b = l ++ [b] := by
  intro l
  induction l with
  | nil => intro a b; rfl
  | cons x xs ih =>
      intro a b
      show x :: ((xs ++ [a]).set xs.length b) = x :: (xs ++ [b])
      rw [ih]

/-- Reading the last position of `l ++ [a]`. -/
theorem getD_append_last {α : Type} : ∀ (l : List α) (a dd : α),
    (l ++ [a]).getD l.length dd = a := by
  intro l
  induction l with
  | nil => intro a dd; rfl
  | cons x xs ih =>
      intro a dd
      show (xs ++ [a]).getD xs.length dd = a
      exact ih a dd

/-- Flipping the final bit of a 25-bit tail. -/
theorem flipBit_append_last (d : List Bool) (q : Bool) (hlen : d.length = 24) :
    flipBit (d ++ [q]) 24 = d ++ [!q] := by
  unfold flipBit
  rw [← hlen, getD_append_last, set_append_last]

/-- C5: Wiegand 26-bit round-trip and parity rejection — encoding any 24-bit
payload and decoding it yields the same EPC value; flipping the front (even)
parity bit or the end (odd) parity bit of a validly encoded frame makes the
decoder return `ParityError` (the frame is dropped, not corrected). -/
theorem wiegand_roundtrip_parity :
    (∀ n : Nat, n < 2 ^ 24 → decodeW26 (encodeW26 n) = Except.ok n) ∧
    (∀ n : Nat, n < 2 ^ 24 →
      decodeW26 (flipBit (encodeW26 n) 0) = Except.error WiegandError.ParityError) ∧
    (∀ n : Nat, n < 2 ^ 24 →
      decodeW26 (flipBit (encodeW26 n) 25) = Except.error WiegandError.ParityError) := by
  refine ⟨?_, ?_, ?_⟩
  · intro n hn
    show decodeW26 (parityBit ((natToBits 24 n).take 12) ::
        (natToBits 24 n ++ [!parityBit ((natToBits 24 n).drop 12)])) = Except.ok n
    rw [decodeW26_frame _ _ _ (length_natToBits 24 n)]
    rw [if_pos ⟨rfl, rfl⟩, bitsToNat_natToBits, Nat.mod_eq_of_lt hn]
  · intro n hn
    have hf : flipBit (encodeW26 n) 0
        = (!parityBit ((natToBits 24 n).take 12)) ::
            (natToBits 24 n ++ [!parityBit ((natToBits 24 n).drop 12)]) := rfl
    rw [hf, decodeW26_frame _ _ _ (length_natToBits 24 n)]
    refine if_neg (fun hcon => ?_)
    have h1 := hcon.1
    simp at h1
  · intro n hn
    have hstep : flipBit (encodeW26 n) 25
        = parityBit ((natToBits 24 n).take 12) ::
            flipBit (natToBits 24 n ++ [!parityBit ((natToBits 24 n).drop 12)]) 24 := rfl
    rw [hstep, flipBit_append_last _ _ (length_natToBits 24 n)]
    rw [decodeW26_frame _ _ _ (length_natToBits 24 n)]
    refine if_neg (fun hcon => ?_)
    have h2 := hcon.2
    simp at h2

/-- C5 witness: the round-trip and both parity-flip rejections at the
concrete payload 5000000. -/
theorem wiegand_roundtrip_parity_witness :
    decodeW26 (encodeW26 5000000) = Except.ok 5000000 ∧
    decodeW26 (flipBit (encodeW26 5000000) 0) = Except.error WiegandError.ParityError ∧
    decodeW26 (flipBit (encodeW26 5000000) 25) = Except.error WiegandError.ParityError :=
  ⟨wiegand_roundtrip_parity.1 5000000 (by norm_num),
   wiegand_roundtrip_parity.2.1 5000000 (by norm_num),
   wiegand_roundtrip_parity.2.2 5000000 (by norm_num)⟩

/-- Characterization of the ranking comparison as a lexicographic order. -/
theorem statLe_iff (a b : RiderStats) : statLe a b = true ↔
    (b.total_laps < a.total_laps ∨
      (a.total_laps = b.total_laps ∧ a.total_time < b.total_time) ∨
      (a.total_laps = b.total_laps ∧ a.total_time = b.total_time ∧
        a.last_ts ≤ b.last_ts)) := by
  unfold statLe
  by_cases h1 : a.total_laps = b.total_laps
  · rw [if_pos h1]
    by_cases h2 : a.total_time = b.total_time
    · rw [if_pos h2]
      simp [h1, h2]
    · rw [if_neg h2]
      simp [h1, h2]
  · rw [if_neg h1]
    simp [h1]

/-- The ranking comparison is total. -/
theorem statLe_total (a b : RiderStats) : statRel a b ∨ statRel b a := by
  unfold statRel
  rw [statLe_iff, statLe_iff]
  by_cases h1 : a.total_laps = b.total_laps
  · by_cases h2 : a.total_time = b.total_time
    · rcases le_total a.last_ts b.last_ts with h | h
      · exact Or.inl (Or.inr (Or.inr ⟨h1, h2, h⟩))
      · exact Or.inr (Or.inr (Or.inr ⟨h1.symm, h2.symm, h⟩))
    · rcases lt_or_gt_of_ne h2 with h | h
      · exact Or.inl (Or.inr (Or.inl ⟨h1, h⟩))
      · exact Or.inr (Or.inr (Or.inl ⟨h1.symm, h⟩))
  · rcases Nat.lt_or_ge b.total_laps a.total_laps with h | h
    · exact Or.inl (Or.inl h)
    · exact Or.inr (Or.inl (Nat.lt_of_le_of_ne h h1))

/-- The ranking comparison is transitive. -/
theorem statLe_trans (a b c : RiderStats) (hab : statRel a b) (hbc : statRel b c) :
    statRel a c := by
  unfold statRel at hab hbc ⊢
  rw [statLe_iff] at hab hbc ⊢
  rcases hab with h | ⟨e1, h⟩ | ⟨e1, e2, h⟩ <;>
    rcases hbc with g | ⟨f1, g⟩ | ⟨f1, f2, g⟩
  · exact Or.inl (by omega)
  · exact Or.inl (by omega)
  · exact Or.inl (by omega)
  · exact Or.inl (by omega)
  · exact Or.inr (Or.inl ⟨by omega, by linarith⟩)
  · exact Or.inr (Or.inl ⟨by omega, by linarith⟩)
  · exact Or.inl (by omega)
  · exact Or.inr (Or.inl ⟨by omega, by linarith⟩)
  · exact Or.inr (Or.inr ⟨by omega, by linarith, by linarith⟩)

/-- The ranking relation is total (bundled form). -/
theorem statRel_isTotal : IsTotal RiderStats statRel := ⟨statLe_total⟩

/-- The ranking relation is transitive (bundled form). -/
theorem statRel_isTrans : IsTrans RiderStats statRel := ⟨statLe_trans⟩

/- ## Leaderboard ordering (claim C1). -/

/-- Numbering preserves length. -/
theorem length_addPositions : ∀ (p : Nat) (l : List RiderStats),
    (addPositions p l).length = l.length := by
  intro p l
  induction l generalizing p with
  | nil => rfl
  | cons s rest ih =>
      show (toEntry p s :: addPositions (p + 1) rest).length = rest.length + 1
      simp [ih]

/-- Entry `i` of the numbered list is rider statistics `i` at position
`p + i`. -/
theorem addPositions_getD : ∀ (l : List RiderStats) (p i : Nat), i < l.length →
    (addPositions p l).getD i default = toEntry (p + i) (l.getD i default) := by
  intro l
  induction l with
  | nil =>
      intro p i h
      exact absurd h (Nat.not_lt_zero i)
  | cons s rest ih =>
      intro p i h
      cases i with
      | zero =>
          show toEntry p s = toEntry (p + 0) s
          rw [Nat.add_zero]
      | succ k =>
          show (addPositions (p + 1) rest).getD k default
                = toEntry (p + (k + 1)) ((s :: rest).getD (k + 1) default)
          have hk : k < rest.length := Nat.lt_of_succ_lt_succ h
          rw [ih (p + 1) k hk]
          show toEntry (p + 1 + k) (rest.getD k default)
                = toEntry (p + (k + 1)) (rest.getD k default)
          rw [Nat.add_assoc, Nat.add_comm 1 k]

/-- C1: in `GetLeaderboard`'s output, more total laps always ranks above,
regardless of times; among equal lap counts the smaller total time ranks
higher; ties on both are broken by the earlier most-recent-lap timestamp;
riders with zero laps appear last; positions number the order from 1.  For
the concrete lap-based scenario — rider A with 5 laps/600 s and rider B with
4 laps/480 s — the leaderboard is `[A, B]`. -/
theorem leaderboard_ranking :
    (∀ (riders : List Nat) (recs : List LapRecord) (i j : Nat),
      i < j → j < (GetLeaderboard riders recs).length →
      ((GetLeaderboard riders recs).getD j default).total_laps
          ≤ ((GetLeaderboard riders recs).getD i default).total_laps ∧
      (((GetLeaderboard riders recs).getD i default).total_laps
            = ((GetLeaderboard riders recs).getD j default).total_laps →
        ((GetLeaderboard riders recs).getD i default).total_time
          ≤ ((GetLeaderboard riders recs).getD j default).total_time) ∧
      (((GetLeaderboard riders recs).getD i default).total_laps
            = ((GetLeaderboard riders recs).getD j default).total_laps →
        ((GetLeaderboard riders recs).getD i default).total_time
            = ((GetLeaderboard riders recs).getD j default).total_time →
        ((leaderboardStats riders recs).getD i default).last_ts
          ≤ ((leaderboardStats riders recs).getD j default).last_ts) ∧
      (((GetLeaderboard riders recs).getD i default).total_laps = 0 →
        ((GetLeaderboard riders recs).getD j default).total_laps = 0) ∧
      ((GetLeaderboard riders recs).getD i default).position = i + 1 ∧
      ((GetLeaderboard riders recs).getD j default).position = j + 1) ∧
    GetLeaderboard [1, 2] demoRecsC1
      = [⟨1, 1, 5, 600, 120, 120⟩, ⟨2, 2, 4, 480, 110, 120⟩] := by
  constructor
  · intro riders recs i j hij hj
    have hlen : (GetLeaderboard riders recs).length = (leaderboardStats riders recs).length :=
      length_addPositions 1 (leaderboardStats riders recs)
    have hjs : j < (leaderboardStats riders recs).length := hlen ▸ hj
    have his : i < (leaderboardStats riders recs).length := lt_trans hij hjs
    have hei : (GetLeaderboard riders recs).getD i default
        = toEntry (1 + i) ((leaderboardStats riders recs).getD i default) :=
      addPositions_getD (leaderboardStats riders recs) 1 i his
    have hej : (GetLeaderboard riders recs).getD j default
        = toEntry (1 + j) ((leaderboardStats riders recs).getD j default) :=
      addPositions_getD (leaderboardStats riders recs) 1 j hjs
    have hsorted : List.Pairwise statRel (leaderboardStats riders recs) :=
      @List.sorted_insertionSort RiderStats statRel _ statRel_isTotal statRel_isTrans
        (riders.map (riderStats recs))
    have hrel : statLe ((leaderboardStats riders recs).getD i default)
        ((leaderboardStats riders recs).getD j default) = true := by
      have h := (List.pairwise_iff_getElem.mp hsorted) i j his hjs hij
      have hgi := List.getD_eq_getElem (leaderboardStats riders recs) default his
      have hgj := List.getD_eq_getElem (leaderboardStats riders recs) default hjs
      rw [hgi, hgj]
      exact h
    rw [statLe_iff] at hrel
    have hA1 : ((leaderboardStats riders recs).getD j default).total_laps
        ≤ ((leaderboardStats riders recs).getD i default).total_laps := by
      rcases hrel with h | ⟨e1, _⟩ | ⟨e1, _, _⟩
      · exact le_of_lt h
      · exact le_of_eq e1.symm
      · exact le_of_eq e1.symm
    refine ⟨?_, ?_, ?_, ?_, ?_, ?_⟩
    · rw [hei, hej]
      exact hA1
    · rw [hei, hej]
      intro he
      rcases hrel with h | ⟨e1, h⟩ | ⟨e1, e2, h⟩
      · show ((leaderboardStats riders recs).getD i default).total_time
            ≤ ((leaderboardStats riders recs).getD j default).total_time
        have he' : ((leaderboardStats riders recs).getD i default).total_laps
            = ((leaderboardStats riders recs).getD j default).total_laps := he
        omega
      · exact le_of_lt h
      · exact le_of_eq e2
    · intro he ht
      rcases hrel with h | ⟨e1, h⟩ | ⟨e1, e2, h⟩
      · have he' : ((leaderboardStats riders recs).getD i default).total_laps
            = ((leaderboardStats riders recs).getD j default).total_laps := by
          rw [hei, hej] at he
          exact he
        omega
      · have ht' : ((leaderboardStats riders recs).getD i default).total_time
            = ((leaderboardStats riders recs).getD j default).total_time := by
          rw [hei, hej] at ht
          exact ht
        exact absurd ht' (ne_of_lt h)
      · exact h
    · rw [hei, hej]
      intro he
      show ((leaderboardStats riders recs).getD j default).total_laps = 0
      have he' : ((leaderboardStats riders recs).getD i default).total_laps = 0 := he
      omega
    · rw [hei]
      show 1 + i = i + 1
      omega
    · rw [hej]
      show 1 + j = j + 1
      omega
  · have hlb : GetLeaderboard [1, 2] demoRecsC1
        = [toEntry 1 (riderStats demoRecsC1 1), toEntry 2 (riderStats demoRecsC1 2)] := rfl
    have hA : toEntry 1 (riderStats demoRecsC1 1) = ⟨1, 1, 5, 600, 120, 120⟩ := by
      show (⟨1, 1, 5, 600, 120, averageLapOf (riderRecsOf demoRecsC1 1)⟩ : LBEntry)
            = ⟨1, 1, 5, 600, 120, 120⟩
      have havg : averageLapOf (riderRecsOf demoRecsC1 1) = 120 := by
        show ((riderRecsOf demoRecsC1 1).map (fun lr => lr.lap_time)).sum
              / ((riderRecsOf demoRecsC1 1).length : ℚ) = 120
        norm_num [demoRecsC1, riderRecsOf]
      rw [havg]
    have hB : toEntry 2 (riderStats demoRecsC1 2) = ⟨2, 2, 4, 480, 110, 120⟩ := by
      show (⟨2, 2, 4, 480, 110, averageLapOf (riderRecsOf demoRecsC1 2)⟩ : LBEntry)
            = ⟨2, 2, 4, 480, 110, 120⟩
      have havg : averageLapOf (riderRecsOf demoRecsC1 2) = 120 := by
        show ((riderRecsOf demoRecsC1 2).map (fun lr => lr.lap_time)).sum
              / ((riderRecsOf demoRecsC1 2).length : ℚ) = 120
        norm_num [demoRecsC1, riderRecsOf]
      rw [havg]
    rw [hlb, hA, hB]

/-- C1 witness: the ordering properties instantiated on the concrete
two-rider scenario at ranks 1 and 2. -/
theorem leaderboard_ranking_witness :
    ((GetLeaderboard [1, 2] demoRecsC1).getD 1 default).total_laps
        ≤ ((GetLeaderboard [1, 2] demoRecsC1).getD 0 default).total_laps ∧
    (((GetLeaderboard [1, 2] demoRecsC1).getD 0 default).total_laps
          = ((GetLeaderboard [1, 2] demoRecsC1).getD 1 default).total_laps →
      ((GetLeaderboard [1, 2] demoRecsC1).getD 0 default).total_time
        ≤ ((GetLeaderboard [1, 2] demoRecsC1).getD 1 default).total_time) ∧
    (((GetLeaderboard [1, 2] demoRecsC1).getD 0 default).total_laps
          = ((GetLeaderboard [1, 2] demoRecsC1).getD 1 default).total_laps →
      ((GetLeaderboard [1, 2] demoRecsC1).getD 0 default).total_time
          = ((GetLeaderboard [1, 2] demoRecsC1).getD 1 default).total_time →
      ((leaderboardStats [1, 2] demoRecsC1).getD 0 default).last_ts
        ≤ ((leaderboardStats [1, 2] demoRecsC1).getD 1 default).last_ts) ∧
    (((GetLeaderboard [1, 2] demoRecsC1).getD 0 default).total_laps = 0 →
      ((GetLeaderboard [1, 2] demoRecsC1).getD 1 default).total_laps = 0) ∧
    ((GetLeaderboard [1, 2] demoRecsC1).getD 0 default).position = 0 + 1 ∧
    ((GetLeaderboard [1, 2] demoRecsC1).getD 1 default).position = 1 + 1 :=
  leaderboard_ranking.1 [1, 2] demoRecsC1 0 1 (by decide) (by decide)

/-- Folding `min` over a list lands in the list (including the seed). -/
theorem foldl_min_mem : ∀ (ts : List ℚ) (t : ℚ), ts.foldl min t ∈ t :: ts := by
  intro ts
  induction ts with
  | nil =>
      intro t
      exact List.mem_singleton.mpr rfl
  | cons u rest ih =>
      intro t
      show rest.foldl min (min t u) ∈ t :: u :: rest
      rcases List.mem_cons.mp (ih (min t u)) with h | h
      · rcases le_total t u with hle | hle
        · rw [h, min_eq_left hle]
          exact List.mem_cons_self _ _
        · rw [h, min_eq_right hle]
          exact List.mem_cons_of_mem _ (List.mem_cons_self _ _)
      · exact List.mem_cons_of_mem _ (List.mem_cons_of_mem _ h)

/-- Folding `min` over a list bounds every element (and the seed). -/
theorem foldl_min_le : ∀ (ts : List ℚ) (t x : ℚ), x ∈ t :: ts → ts.foldl min t ≤ x := by
  intro ts
  induction ts with
  | nil =>
      intro t x hx
      rw [List.mem_singleton] at hx
      rw [hx]
      exact le_refl t
  | cons u rest ih =>
      intro t x hx
      show rest.foldl min (min t u) ≤ x
      rcases List.mem_cons.mp hx with h | h
      · have hle : rest.foldl min (min t u) ≤ min t u :=
          ih (min t u) (min t u) (List.mem_cons_self _ _)
        rw [h]
        exact le_trans hle (min_le_left t u)
      · rcases List.mem_cons.mp h with h2 | h2
        · have hle : rest.foldl min (min t u) ≤ min t u :=
            ih (min t u) (min t u) (List.mem_cons_self _ _)
          rw [h2]
          exact le_trans hle (min_le_right t u)
        · exact ih (min t u) x (List.mem_cons_of_mem _ h2)

/-- Every numbered entry publishes some statistics record of the input. -/
theorem mem_addPositions : ∀ (l : List RiderStats) (p : Nat) (e : LBEntry),
    e ∈ addPositions p l → ∃ s ∈ l, ∃ k, e = toEntry k s := by
  intro l
  induction l with
  | nil =>
      intro p e h
      cases h
  | cons s rest ih =>
      intro p e h
      rcases List.mem_cons.mp h with h | h
      · exact ⟨s, List.mem_cons_self _ _, p, h⟩
      · obtain ⟨s', hs', k, hk⟩ := ih (p + 1) e h
        exact ⟨s', List.mem_cons_of_mem _ hs', k, hk⟩

/-- Every `GetLeaderboard` entry publishes the statistics of some rider of
the input list. -/
theorem GetLeaderboard_mem (riders : List Nat) (recs : List LapRecord) (e : LBEntry)
    (h : e ∈ GetLeaderboard riders recs) :
    ∃ r ∈ riders, ∃ k, e = toEntry k (riderStats recs r) := by
  obtain ⟨s, hs, k, he⟩ := mem_addPositions (leaderboardStats riders recs) 1 e h
  have hmem : s ∈ riders.map (riderStats recs) := by
    have := List.mem_insertionSort statRel (l := riders.map (riderStats recs)) (x := s)
    exact this.mp hs
  obtain ⟨r, hr, hsr⟩ := List.mem_map.mp hmem
  exact ⟨r, hr, k, by rw [he, hsr]⟩

/-- C8: every `GetLeaderboard` entry carries exactly the documented fields
`{position, rider, total_laps, total_time, best_lap, average_lap}`, where
`best_lap` is the minimum lap time and `average_lap` the mean lap time of
that rider's laps — while the frontend table rows read the fields
`rider_number`, `rider_name`, `team`, `category`, `best_lap_time`,
`average_lap_time` and `status`, none of which exist on a published entry. -/
theorem leaderboard_entry_fields :
    (∀ (riders : List Nat) (recs : List LapRecord) (e : LBEntry),
      e ∈ GetLeaderboard riders recs →
      (entryFields e).map Prod.fst = specEntryFieldNames) ∧
    (∀ (riders : List Nat) (recs : List LapRecord) (e : LBEntry),
      e ∈ GetLeaderboard riders recs →
      ∃ r ∈ riders, e.rider = r ∧ e.total_laps = (riderRecsOf recs r).length ∧
        e.total_time = latestCumOf (riderRecsOf recs r) ∧
        e.best_lap = bestLapOf (riderRecsOf recs r) ∧
        e.average_lap = averageLapOf (riderRecsOf recs r)) ∧
    (∀ l : List LapRecord, l ≠ [] →
      bestLapOf l ∈ l.map (fun lr => lr.lap_time) ∧
      ∀ t ∈ l.map (fun lr => lr.lap_time), bestLapOf l ≤ t) ∧
    (∀ l : List LapRecord,
      averageLapOf l = (l.map (fun lr => lr.lap_time)).sum / (l.length : ℚ)) ∧
    (∀ name ∈ ["rider_number", "rider_name", "team", "category", "best_lap_time",
        "average_lap_time", "status"],
      name ∈ frontendRowFieldNames ∧ name ∉ specEntryFieldNames ∧
      ∀ e : LBEntry, (entryFields e).lookup name = none) := by
  refine ⟨?_, ?_, ?_, ?_, ?_⟩
  · intro riders recs e _
    rfl
  · intro riders recs e h
    obtain ⟨r, hr, k, he⟩ := GetLeaderboard_mem riders recs e h
    refine ⟨r, hr, ?_, ?_, ?_, ?_, ?_⟩ <;> rw [he] <;> rfl
  · intro l hl
    cases l with
    | nil => exact absurd rfl hl
    | cons lr rest =>
        constructor
        · show (rest.map (fun lr => lr.lap_time)).foldl min lr.lap_time
              ∈ (lr :: rest).map (fun lr => lr.lap_time)
          simpa using foldl_min_mem (rest.map (fun lr => lr.lap_time)) lr.lap_time
        · intro t ht
          show (rest.map (fun lr => lr.lap_time)).foldl min lr.lap_time ≤ t
          exact foldl_min_le (rest.map (fun lr => lr.lap_time)) lr.lap_time t
            (by simpa using ht)
  · intro l
    rfl
  · intro name hname
    fin_cases hname <;> exact ⟨by decide, by decide, fun e => rfl⟩

/-- C8 witness: the field-name contract applied to the concrete entry at the
head of a one-rider leaderboard, and the missing frontend field
`best_lap_time` on it. -/
theorem leaderboard_entry_fields_witness :
    (entryFields (toEntry 1 (riderStats demoRecsC1 1))).map Prod.fst
        = specEntryFieldNames ∧
    (entryFields (toEntry 1 (riderStats demoRecsC1 1))).lookup "best_lap_time" = none :=
  ⟨leaderboard_entry_fields.1 [1] demoRecsC1 (toEntry 1 (riderStats demoRecsC1 1))
      (List.mem_singleton.mpr rfl),
   (leaderboard_entry_fields.2.2.2.2 "best_lap_time" (by decide)).2.2
      (toEntry 1 (riderStats demoRecsC1 1))⟩

/-- C9: `formatTime` renders every falsy input — `0`, `NaN`, `null`,
`undefined` — as `"-"` (so a time of exactly 0 seconds shows as `"-"`, not
`"0:00.000"`), and renders every positive number of seconds as
`floor(t/60)`, a colon, and `t mod 60` with exactly three decimals
left-padded with `'0'` to width 6; in particular 61.0 renders as
`"1:01.000"` and 150.5 as `"2:30.500"`. -/
theorem format_time_spec :
    (formatTime (JsTime.num 0) = "-" ∧ formatTime JsTime.nan = "-" ∧
      formatTime JsTime.nullv = "-" ∧ formatTime JsTime.undefinedv = "-" ∧
      "-" ≠ "0:00.000") ∧
    (∀ q : ℚ, 0 < q →
      formatTime (JsTime.num q)
        = toString (Int.floor (q / 60)) ++ ":" ++ padStart (toFixed3 (jsMod q 60)) 6 '0') ∧
    formatTime (JsTime.num 61) = "1:01.000" ∧
    formatTime (JsTime.num (301/2)) = "2:30.500" := by
  have hgen : ∀ q : ℚ, 0 < q →
      formatTime (JsTime.num q)
        = toString (Int.floor (q / 60)) ++ ":" ++ padStart (toFixed3 (jsMod q 60)) 6 '0' := by
    intro q hq
    unfold formatTime
    rw [if_neg ?hne]
    case hne =>
      show ¬(jsFalsy (JsTime.num q) = true)
      simp only [jsFalsy, decide_eq_true_eq]
      exact ne_of_gt hq
  refine ⟨⟨rfl, rfl, rfl, rfl, by decide⟩, hgen, ?_, ?_⟩
  · have hfl : Int.floor ((61 : ℚ) / 60) = 1 := by
      rw [Int.floor_eq_iff]
      norm_num
    have hmod : jsMod 61 60 = 1 := by
      unfold jsMod ratTrunc
      rw [if_neg (by norm_num), hfl]
      norm_num
    have hn : Int.floor ((1 : ℚ) * 1000 + 1 / 2) = 1000 := by
      rw [Int.floor_eq_iff]
      norm_num
    have hfix : toFixed3 1 = "1.000" := by
      unfold toFixed3
      rw [hn]
      rfl
    rw [hgen 61 (by norm_num), hfl, hmod, hfix]
    rfl
  · have hfl : Int.floor ((301 / 2 : ℚ) / 60) = 2 := by
      rw [Int.floor_eq_iff]
      norm_num
    have hmod : jsMod (301 / 2) 60 = 61 / 2 := by
      unfold jsMod ratTrunc
      rw [if_neg (by norm_num), hfl]
      norm_num
    have hn : Int.floor ((61 / 2 : ℚ) * 1000 + 1 / 2) = 30500 := by
      rw [Int.floor_eq_iff]
      norm_num
    have hfix : toFixed3 (61 / 2) = "30.500" := by
      unfold toFixed3
      rw [hn]
      rfl
    rw [hgen (301 / 2) (by norm_num), hfl, hmod, hfix]
    rfl

/-- C9 witness: the positive-seconds rendering rule applied at 61 seconds. -/
theorem format_time_spec_witness :
    formatTime (JsTime.num 61)
      = toString (Int.floor ((61 : ℚ) / 60)) ++ ":" ++
          padStart (toFixed3 (jsMod 61 60)) 6 '0' :=
  format_time_spec.2.1 61 (by norm_num)

/-- C10: `fetchLeaderboard` is total over malformed responses — a body
without an `entries` field, or with a falsy `entries`, sets the displayed
leaderboard to the empty list; a present truthy `entries` array is
displayed; and a thrown fetch only appends to the error log, leaving the
previously displayed leaderboard unchanged. -/
theorem fetch_leaderboard_total :
    (∀ (m : DashboardState) (body : List (String × JsonVal)),
      body.lookup "entries" = none →
      (fetchLeaderboard m (LBResponse.ok body)).leaderboard = JsonVal.arr [] ∧
      (fetchLeaderboard m (LBResponse.ok body)).errorLog = m.errorLog) ∧
    (∀ (m : DashboardState) (body : List (String × JsonVal)) (v : JsonVal),
      body.lookup "entries" = some v → jsonFalsy v = true →
      (fetchLeaderboard m (LBResponse.ok body)).leaderboard = JsonVal.arr []) ∧
    (∀ (m : DashboardState) (body : List (String × JsonVal)) (rows : List String),
      body.lookup "entries" = some (JsonVal.arr rows) →
      (fetchLeaderboard m (LBResponse.ok body)).leaderboard = JsonVal.arr rows) ∧
    (∀ m : DashboardState,
      (fetchLeaderboard m LBResponse.thrown).leaderboard = m.leaderboard ∧
      (fetchLeaderboard m LBResponse.thrown).errorLog
        = m.errorLog ++ ["Error fetching leaderboard"]) := by
  have hok : ∀ (m : DashboardState) (body : List (String × JsonVal)),
      fetchLeaderboard m (LBResponse.ok body)
        = (match body.lookup "entries" with
           | none => { m with leaderboard := JsonVal.arr [] }
           | some v =>
              { m with leaderboard := if jsonFalsy v then JsonVal.arr [] else v }) :=
    fun m body => rfl
  refine ⟨?_, ?_, ?_, ?_⟩
  · intro m body h
    rw [hok, h]
    exact ⟨rfl, rfl⟩
  · intro m body v h hv
    rw [hok, h]
    show ({ m with leaderboard := if jsonFalsy v then JsonVal.arr [] else v }
            : DashboardState).leaderboard = JsonVal.arr []
    show (if jsonFalsy v then JsonVal.arr [] else v) = JsonVal.arr []
    rw [if_pos hv]
  · intro m body rows h
    rw [hok, h]
    show (if jsonFalsy (JsonVal.arr rows) then JsonVal.arr [] else JsonVal.arr rows)
          = JsonVal.arr rows
    rfl
  · intro m
    exact ⟨rfl, rfl⟩

/-- C10 witness: a response body without `entries` empties the displayed
leaderboard, and a thrown fetch preserves it, on a concrete state. -/
theorem fetch_leaderboard_total_witness :
    (fetchLeaderboard ⟨JsonVal.arr ["row1"], []⟩
        (LBResponse.ok [("status", JsonVal.str "ok")])).leaderboard = JsonVal.arr [] ∧
    (fetchLeaderboard ⟨JsonVal.arr ["row1"], []⟩ LBResponse.thrown).leaderboard
        = JsonVal.arr ["row1"] :=
  ⟨(fetch_leaderboard_total.1 ⟨JsonVal.arr ["row1"], []⟩
      [("status", JsonVal.str "ok")] (by decide)).1,
   (fetch_leaderboard_total.2.2.2 ⟨JsonVal.arr ["row1"], []⟩).1⟩
